import Mathlib

/-!
Verification of the storage-layout resolver in src/src/solidity/decodeInfo.js.

The resolver takes a type string produced by the Solidity AST together with a
table of user declarations (structs, enums) and computes storage-layout
metadata: how many 32-byte slots a value of the type occupies, and how many
bytes it takes inside a slot.

The embedding below models the JavaScript semantics the source relies on:

* JavaScript numbers are modelled by JSNum: either NaN, an infinity, or an
  exact rational.  All numbers the resolver manipulates are dyadic rationals,
  which IEEE doubles represent exactly, so the rational model is faithful on
  every value the code can produce.  Negative zero is identified with zero.
* parseInt, String.prototype.replace with a string pattern (first occurrence
  only), the global digit-run regex replace, split, indexOf and the two
  type-shape regexes are modelled character by character.  The regex dot is
  modelled as matching any character; AST type strings contain no newline.
* The result of the resolver is a PResult: ok (a descriptor object), null
  (the source returns null), crash (the source throws, which happens when the
  dispatch table lookup yields undefined and is invoked), or diverge (the
  fuel of the embedding ran out; the source recurses without any bound).
* The descriptor classes (UintType, ArrayType, ...) live outside src/ and,
  following the specification, are modelled as carrying the decodeInfo record
  given to their constructor unchanged.
-/

/-- Abbreviation kept so later sections can mention the string type even where
a source function named String is in scope. -/
abbrev Str := String

/-- A JavaScript number: NaN, positive or negative infinity, or a finite value
modelled as an exact rational. -/
inductive JSNum where
  | nan
  | inf
  | ninf
  | num (q : ℚ)
deriving DecidableEq

namespace JSNum

/-- JavaScript addition. -/
def jsAdd : JSNum → JSNum → JSNum
  | nan, _ => nan
  | _, nan => nan
  | inf, ninf => nan
  | ninf, inf => nan
  | inf, _ => inf
  | _, inf => inf
  | ninf, _ => ninf
  | _, ninf => ninf
  | num a, num b => num (a + b)

/-- JavaScript multiplication. -/
def jsMul : JSNum → JSNum → JSNum
  | nan, _ => nan
  | _, nan => nan
  | inf, inf => inf
  | inf, ninf => ninf
  | ninf, inf => ninf
  | ninf, ninf => inf
  | inf, num b => if 0 < b then inf else if b < 0 then ninf else nan
  | num a, inf => if 0 < a then inf else if a < 0 then ninf else nan
  | ninf, num b => if 0 < b then ninf else if b < 0 then inf else nan
  | num a, ninf => if 0 < a then ninf else if a < 0 then inf else nan
  | num a, num b => num (a * b)

/-- JavaScript division. -/
def jsDiv : JSNum → JSNum → JSNum
  | nan, _ => nan
  | _, nan => nan
  | inf, inf => nan
  | inf, ninf => nan
  | ninf, inf => nan
  | ninf, ninf => nan
  | inf, num b => if 0 ≤ b then inf else ninf
  | ninf, num b => if 0 ≤ b then ninf else inf
  | num _, inf => num 0
  | num _, ninf => num 0
  | num a, num b =>
    if b = 0 then (if 0 < a then inf else if a < 0 then ninf else nan)
    else num (a / b)

/-- JavaScript strict less-than; false whenever an operand is NaN. -/
def jsLt : JSNum → JSNum → Bool
  | nan, _ => false
  | _, nan => false
  | inf, _ => false
  | ninf, ninf => false
  | ninf, _ => true
  | num _, inf => true
  | num _, ninf => false
  | num a, num b => decide (a < b)

/-- Math.floor. -/
def jsFloor : JSNum → JSNum
  | nan => nan
  | inf => inf
  | ninf => ninf
  | num q => num (⌊q⌋ : ℚ)

/-- Math.ceil. -/
def jsCeil : JSNum → JSNum
  | nan => nan
  | inf => inf
  | ninf => ninf
  | num q => num (⌈q⌉ : ℚ)

end JSNum

open JSNum

/-! ## Character-level models of the JavaScript string builtins -/

/-- Whitespace skipped by parseInt. -/
def isJsSpace (c : Char) : Bool :=
  c = ' ' || c = '\t' || c = '\n' || c = '\r' || c = '\x0b' || c = '\x0c'

/-- Value of a hexadecimal digit, if the character is one, written on the
ASCII code of the character. -/
def hexDigitVal (c : Char) : Option ℕ :=
  let code := c.toNat
  if 48 ≤ code ∧ code ≤ 57 then some (code - 48)
  else if 97 ≤ code ∧ code ≤ 102 then some (code - 87)
  else if 65 ≤ code ∧ code ≤ 70 then some (code - 55)
  else none

/-- Accumulate a digit list into a natural number, given a base and a digit
valuation. -/
def digitsVal (base : ℕ) (val : Char → Option ℕ) (cs : List Char) : ℕ :=
  cs.foldl (fun a c => base * a + (val c).getD 0) 0

/-- Model of the JavaScript global parseInt with no radix argument: skip
leading whitespace, read an optional sign, then either a 0x-prefixed
hexadecimal digit run or a decimal digit run; NaN when no digit is found. -/
def jsParseInt (s : Str) : JSNum :=
  let cs := s.toList.dropWhile isJsSpace
  let sgn : ℚ × List Char :=
    match cs with
    | '+' :: t => (1, t)
    | '-' :: t => (-1, t)
    | t => (1, t)
  match sgn.2 with
  | '0' :: 'x' :: t =>
      let ds := t.takeWhile (fun c => (hexDigitVal c).isSome)
      if ds.isEmpty then .nan else .num (sgn.1 * (digitsVal 16 hexDigitVal ds : ℚ))
  | '0' :: 'X' :: t =>
      let ds := t.takeWhile (fun c => (hexDigitVal c).isSome)
      if ds.isEmpty then .nan else .num (sgn.1 * (digitsVal 16 hexDigitVal ds : ℚ))
  | t =>
      let ds := t.takeWhile Char.isDigit
      if ds.isEmpty then .nan
      else .num (sgn.1 * (digitsVal 10 (fun c => some (c.toNat - '0'.toNat)) ds : ℚ))

/-- Model of String.prototype.replace with a plain string pattern: only the
first occurrence is replaced; the string is returned unchanged when the
pattern does not occur. -/
def replFirst (pat rep : List Char) : List Char → List Char
  | [] => if pat.isEmpty then rep else []
  | c :: t =>
    if pat.isPrefixOf (c :: t) then rep ++ (c :: t).drop pat.length
    else c :: replFirst pat rep t

/-- String wrapper for replFirst. -/
def jsReplaceFirst (s pat rep : Str) : Str :=
  ⟨replFirst pat.toList rep.toList s.toList⟩

/-- Model of the global regex replace of every maximal digit run: the flag
records whether the previous character was a digit, so the replacement is
emitted once at the start of each run. -/
def replRuns (rep : List Char) : List Char → Bool → List Char
  | [], _ => []
  | c :: t, inRun =>
    if c.isDigit then (if inRun then [] else rep) ++ replRuns rep t true
    else c :: replRuns rep t false

/-- String wrapper for replRuns. -/
def jsReplaceDigitRuns (s rep : Str) : Str :=
  ⟨replRuns rep.toList s.toList false⟩

/-- Model of s.split(delimiter)[0] for a single-character delimiter: the
characters before the first occurrence of the delimiter. -/
def jsFirstToken (s : Str) : Str :=
  ⟨s.toList.takeWhile (fun c => c != ' ')⟩

/-- Model of s.indexOf(c) !== -1 for a single character. -/
def jsHasChar (s : Str) (c : Char) : Bool :=
  s.toList.contains c

/-! ## The two type-shape regexes -/

/-- The optional trailing storage-location qualifier, or the empty remainder:
the suffixes accepted by the group ( storage ref| storage pointer| memory|
 calldata)? followed by the end anchor. -/
def qualOrEmpty (cs : List Char) : Bool :=
  cs == [] || cs == " storage ref".toList || cs == " storage pointer".toList
    || cs == " memory".toList || cs == " calldata".toList

/-- The lazy group of the array regex: given the characters following the
opening bracket, find the leftmost closing bracket whose remainder is a
qualifier or empty, and return the characters before it. -/
def findLazyClose : List Char → Option (List Char)
  | [] => none
  | c :: t =>
    if c = ']' && qualOrEmpty t then some []
    else
      match findLazyClose t with
      | some g => some (c :: g)
      | none => none

/-- The greedy leading group of the array regex: backtracking prefers the
rightmost opening bracket that admits a valid completion, so the recursion
first tries to keep the current character inside the leading group. -/
def greedySplit : List Char → Option (List Char × List Char)
  | [] => none
  | c :: t =>
    match greedySplit t with
    | some (g1, g2) => some (c :: g1, g2)
    | none => if c = '[' then (findLazyClose t).map (fun g2 => ([], g2)) else none

/-- Model of type.match of the array regex: on success, the element substring
(group 1) and the size token (group 2). -/
def arrayMatch (s : Str) : Option (Str × Str) :=
  (greedySplit s.toList).map (fun p => (⟨p.1⟩, ⟨p.2⟩))

/-- The lazy name group of the struct regex: the shortest prefix of the
characters after the literal struct keyword whose remainder is a qualifier or
empty. -/
def lazyGroup : List Char → List Char
  | [] => []
  | c :: t => if qualOrEmpty (c :: t) then [] else c :: lazyGroup t

/-- Scan for the leftmost occurrence of the literal struct keyword followed by
a space, as the regex engine does when the pattern is not anchored. -/
def findStructKey : List Char → Option (List Char)
  | [] => none
  | c :: t =>
    if "struct ".toList.isPrefixOf (c :: t) then some (lazyGroup ((c :: t).drop 7))
    else findStructKey t

/-- Model of type.match of the struct regex: on success, the struct name
(group 1). -/
def structMatch (s : Str) : Option Str :=
  (findStructKey s.toList).map (fun g => ⟨g⟩)

/-! ## The data model -/

/-- The attributes object of an AST declaration node.  The name and member
type fields may be absent, as object properties can be in JavaScript. -/
structure Attributes where
  name : Option Str
  type : Option Str
deriving DecidableEq

/-- An AST declaration node: a node-kind tag (for example StructDefinition),
its attributes, and its ordered children (struct members or enum values). -/
inductive Declaration where
  | mk (name : Str) (attributes : Attributes) (children : List Declaration)

/-- Node-kind tag of a declaration. -/
def Declaration.name : Declaration → Str
  | .mk n _ _ => n

/-- Attributes of a declaration. -/
def Declaration.attributes : Declaration → Attributes
  | .mk _ a _ => a

/-- Children of a declaration. -/
def Declaration.children : Declaration → List Declaration
  | .mk _ _ c => c

/-- The size part of an array descriptor: the string dynamic or the parseInt
of the size token. -/
inductive ArrSize where
  | dynamic
  | size (n : JSNum)
deriving DecidableEq

/-- A decodeInfo record wrapped by the descriptor classes.  Fields absent
from a given record are none. -/
inductive Descriptor where
  | mk (storageSlots : JSNum) (storageBytes : JSNum) (typeName : Str)
       (arraySize : Option ArrSize) (underlyingType : Option Descriptor)
       (members : Option (List Descriptor)) (enumDef : Option Declaration)

/-- storageSlots field of a descriptor. -/
def Descriptor.storageSlots : Descriptor → JSNum
  | .mk s _ _ _ _ _ _ => s

/-- storageBytes field of a descriptor. -/
def Descriptor.storageBytes : Descriptor → JSNum
  | .mk _ b _ _ _ _ _ => b

/-- typeName field of a descriptor. -/
def Descriptor.typeName : Descriptor → Str
  | .mk _ _ t _ _ _ _ => t

/-- arraySize field of a descriptor. -/
def Descriptor.arraySize : Descriptor → Option ArrSize
  | .mk _ _ _ a _ _ _ => a

/-- underlyingType field of a descriptor. -/
def Descriptor.underlyingType : Descriptor → Option Descriptor
  | .mk _ _ _ _ u _ _ => u

/-- members field of a descriptor. -/
def Descriptor.members : Descriptor → Option (List Descriptor)
  | .mk _ _ _ _ _ m _ => m

/-- enumDef field of a descriptor. -/
def Descriptor.enumDef : Descriptor → Option Declaration
  | .mk _ _ _ _ _ _ e => e

/-- Outcome of a resolver call: a value, the null the source returns on a
recognized failure, a thrown exception, or exhaustion of the embedding fuel. -/
inductive PResult (α : Type) where
  | ok (val : α)
  | null
  | crash
  | diverge
deriving DecidableEq

/-- The enum byte-width loop of the source: while (length > 1) { length =
length / 256; storageBytes++ }.  The division is exact on dyadic rationals,
as it is on IEEE doubles for every value the loop can see. -/
def enumBytesLoop (length : ℚ) : ℕ :=
  if h : 1 < length then enumBytesLoop (length / 256) + 1 else 0
termination_by ⌈length⌉₊
decreasing_by
  have hc : 2 ≤ ⌈length⌉₊ := by
    have := (Nat.lt_ceil (n := 1) (a := length)).2 (by exact_mod_cast h)
    omega
  have hle : length ≤ (⌈length⌉₊ : ℚ) := Nat.le_ceil length
  have : length / 256 ≤ ((⌈length⌉₊ - 1 : ℕ) : ℚ) := by
    have hcast : ((⌈length⌉₊ - 1 : ℕ) : ℚ) = (⌈length⌉₊ : ℚ) - 1 := by
      have : (1:ℕ) ≤ ⌈length⌉₊ := by omega
      push_cast [Nat.cast_sub this]
      ring
    rw [hcast]
    have hcq : (2:ℚ) ≤ (⌈length⌉₊ : ℚ) := by exact_mod_cast hc
    have h1 : length / 256 ≤ (⌈length⌉₊ : ℚ) / 256 :=
      (div_le_div_iff_of_pos_right (by norm_num)).2 hle
    have h2 : (⌈length⌉₊ : ℚ) / 256 ≤ (⌈length⌉₊ : ℚ) - 1 := by linarith
    linarith [h1, h2]
  calc ⌈length / 256⌉₊ ≤ ⌈length⌉₊ - 1 := by
        exact Nat.ceil_le.2 this
    _ < ⌈length⌉₊ := by omega

/-! ## The source functions of decodeInfo.js

Each definition in this namespace is the shallow embedding of the function of
the same name in src/src/solidity/decodeInfo.js.  The composite builders take
the recursive resolver as an explicit parameter; parseType ties the knot with
a fuel argument, since the source recursion has no bound. -/

namespace decodeInfo

/-- typeClass (lines 270-279): the category token of a raw type string. -/
def typeClass (fullType : Str) : Str :=
  if jsHasChar fullType ']' then "array"
  else
    let fullType := if jsHasChar fullType ' ' then jsFirstToken fullType else fullType
    let char := if fullType.startsWith "bytes" then "X" else ""
    jsReplaceDigitRuns fullType char

/-- getEnum (lines 222-230): first declaration whose attributes carry a
truthy name with enum prepended equal to the full type string.  No node-kind
check is performed. -/
def getEnum (type : Str) (stateDefinitions : List Declaration) : Option Declaration :=
  stateDefinitions.find? (fun dec =>
    match dec.attributes.name with
    | some n => n != "" && type == "enum " ++ n
    | none => false)

/-- The search of the getStructMembers loop (lines 242-244): first
declaration of kind StructDefinition whose declared name equals the struct
name. -/
def findStructDef (typeName : Str) (stateDefinitions : List Declaration) : Option Declaration :=
  stateDefinitions.find? (fun dec =>
    dec.name == "StructDefinition" && dec.attributes.name == some typeName)

/-- The member loop of getStructMembers (lines 245-254): resolve each member
type in order, pushing descriptors and accumulating storageBytes; a null from
the resolver aborts the whole call with null. -/
def structMembersGo (rec : Str → PResult Descriptor) :
    List Declaration → List Descriptor → JSNum → PResult (List Descriptor × JSNum)
  | [], members, storageBytes => .ok (members, storageBytes)
  | member :: rest, members, storageBytes =>
    match member.attributes.type with
    | none => .crash
    | some ts =>
      match rec ts with
      | .ok decoded =>
          structMembersGo rec rest (members ++ [decoded])
            (jsAdd storageBytes decoded.storageBytes)
      | .null => .null
      | .crash => .crash
      | .diverge => .diverge

/-- getStructMembers (lines 239-262).  When no declaration matches, the loop
falls through and the accumulators are returned as they are: an empty member
list with zero total bytes, not null. -/
def getStructMembers (rec : Str → PResult Descriptor) (typeName : Str)
    (stateDefinitions : List Declaration) : PResult (List Descriptor × JSNum) :=
  match findStructDef typeName stateDefinitions with
  | none => .ok ([], .num 0)
  | some dec => structMembersGo rec dec.children [] (.num 0)

/-- Uint (lines 20-28).  The first expression of the body evaluates the
conditional and discards the result, so it is kept here as a discarded
binding; the width is then parsed from the original string. -/
def Uint (type : Str) : Descriptor :=
  let _ := if type == "uint" then "uint256" else type
  .mk (.num 1) (jsDiv (jsParseInt (jsReplaceFirst type "uint" "")) (.num 8)) "uint"
    none none none none

/-- Int (lines 36-44), with the same discarded conditional as Uint. -/
def Int (type : Str) : Descriptor :=
  let _ := if type == "int" then "int256" else type
  .mk (.num 1) (jsDiv (jsParseInt (jsReplaceFirst type "int" "")) (.num 8)) "int"
    none none none none

/-- Address (lines 52-59). -/
def Address (_type : Str) : Descriptor :=
  .mk (.num 1) (.num 20) "address" none none none none

/-- Bool (lines 67-74). -/
def Bool (_type : Str) : Descriptor :=
  .mk (.num 1) (.num 1) "bool" none none none none

/-- DynamicByteArray (lines 82-89). -/
def DynamicByteArray (_type : Str) : Descriptor :=
  .mk (.num 1) (.num 32) "bytes" none none none none

/-- FixedByteArray (lines 97-104). -/
def FixedByteArray (type : Str) : Descriptor :=
  .mk (.num 1) (jsParseInt (jsReplaceFirst type "bytes" "")) "bytesX"
    none none none none

/-- String (lines 112-119). -/
def String (_type : Str) : Descriptor :=
  .mk (.num 1) (.num 32) "string" none none none none

/-- Array (lines 127-164): match the array shape, parse the size token,
resolve the element, then compute the slot count: one slot for a dynamic
array; for a fixed size, pack floor(32 / elementBytes) items per slot when
the element is narrower than 32 bytes, otherwise multiply the size by the
element slot count. -/
def Array (rec : Str → PResult Descriptor) (type : Str) : PResult Descriptor :=
  match arrayMatch type with
  | none => .null
  | some (g1, g2) =>
    let arraySize : ArrSize := if g2 == "" then .dynamic else .size (jsParseInt g2)
    match rec g1 with
    | .null => .null
    | .crash => .crash
    | .diverge => .diverge
    | .ok underlyingType =>
      let storageSlots : JSNum :=
        match arraySize with
        | .dynamic => .num 1
        | .size n =>
          if jsLt underlyingType.storageBytes (.num 32) then
            jsCeil (jsDiv n (jsFloor (jsDiv (.num 32) underlyingType.storageBytes)))
          else jsMul n underlyingType.storageSlots
      .ok (.mk storageSlots (.num 32) "array" (some arraySize) (some underlyingType)
            none none)

/-- Enum (lines 172-191): look up the declaration, then derive the byte width
from the number of declared values with the division loop. -/
def Enum (type : Str) (stateDefinitions : List Declaration) : PResult Descriptor :=
  match getEnum type stateDefinitions with
  | none => .null
  | some enumDef =>
    .ok (.mk (.num 1) (.num (enumBytesLoop (enumDef.children.length : ℚ))) "enum"
          none none none (some enumDef))

/-- Struct (lines 199-213): match the struct shape, collect the members, then
take ceil(totalMemberBytes / 32) slots and a 32-byte placeholder width. -/
def Struct (rec : Str → PResult Descriptor) (type : Str)
    (stateDefinitions : List Declaration) : PResult Descriptor :=
  match structMatch type with
  | none => .null
  | some nm =>
    match getStructMembers rec nm stateDefinitions with
    | .ok (members, storageBytes) =>
        .ok (.mk (jsCeil (jsDiv storageBytes (.num 32))) (.num 32) "struct"
              none none (some members) none)
    | .null => .null
    | .crash => .crash
    | .diverge => .diverge

/-- parseType (lines 288-307): classify and dispatch through the table of
builders.  A category absent from the table makes the source invoke
undefined, a thrown TypeError, modelled as crash.  The null check on the
classifier result in the source is dead code, since typeClass always returns
a string. -/
def parseType : ℕ → Str → List Declaration → PResult Descriptor
  | 0, _, _ => .diverge
  | fuel + 1, type, stateDefinitions =>
    let currentType := typeClass type
    if currentType = "address" then .ok (Address type)
    else if currentType = "array" then
      Array (fun t => parseType fuel t stateDefinitions) type
    else if currentType = "bool" then .ok (Bool type)
    else if currentType = "bytes" then .ok (DynamicByteArray type)
    else if currentType = "bytesX" then .ok (FixedByteArray type)
    else if currentType = "enum" then Enum type stateDefinitions
    else if currentType = "string" then .ok (String type)
    else if currentType = "struct" then
      Struct (fun t => parseType fuel t stateDefinitions) type stateDefinitions
    else if currentType = "int" then .ok (Int type)
    else if currentType = "uint" then .ok (Uint type)
    else .crash

end decodeInfo

/-! ## Predicates and helper definitions used by the theorems -/

/-- The number is finite and positive. -/
def posNumB : JSNum → Bool
  | .num q => decide (0 < q)
  | _ => false

/-- The number is finite and at least one. -/
def geOneB : JSNum → Bool
  | .num q => decide (1 ≤ q)
  | _ => false

mutual
/-- Well-shaped input tree: every node carries a positive finite byte width,
every fixed array size is at least one, and every struct member list is
non-empty.  These are the shapes the specification grammar produces. -/
def okShape : Descriptor → Bool
  | .mk _ sbytes _ asz u ms _ =>
    posNumB sbytes
    && (match asz with
        | some (.size n) => geOneB n
        | _ => true)
    && (match u with
        | some d => okShape d
        | none => true)
    && (match ms with
        | some l => !l.isEmpty && okShapeList l
        | none => true)

/-- okShape on every element of a list. -/
def okShapeList : List Descriptor → Bool
  | [] => true
  | d :: t => okShape d && okShapeList t
end

mutual
/-- Every node of the descriptor tree has a finite storageSlots of at least
one. -/
def slotsGE : Descriptor → Bool
  | .mk s _ _ _ u ms _ =>
    geOneB s
    && (match u with
        | some d => slotsGE d
        | none => true)
    && (match ms with
        | some l => slotsGEList l
        | none => true)

/-- slotsGE on every element of a list. -/
def slotsGEList : List Descriptor → Bool
  | [] => true
  | d :: t => slotsGE d && slotsGEList t
end

/-- The storageSlots of a successful resolution, if any. -/
def resultSlots : PResult Descriptor → Option JSNum
  | .ok d => some d.storageSlots
  | _ => none

/-- The byte accumulation of the getStructMembers loop over an already
collected member list: a left fold of JavaScript addition over the member
storageBytes. -/
def foldBytes (accB : JSNum) (ms : List Descriptor) : JSNum :=
  ms.foldl (fun a m => JSNum.jsAdd a m.storageBytes) accB

/-- Total member bytes of a struct: the fold started at zero. -/
def sumMemberBytes (ms : List Descriptor) : JSNum :=
  foldBytes (.num 0) ms

/-- The member descriptor m is the successful resolution of the declared
member type string of the declaration c. -/
def memberFrom (rec : Str → PResult Descriptor) (c : Declaration) (m : Descriptor) : Prop :=
  ∃ ts, c.attributes.type = some ts ∧ rec ts = .ok m

/-- Modelled from the spec: the width substitution the first expression of
Uint is intended to perform, namely replacing the bare keyword by its
256-bit form before the width is parsed.  The source evaluates the
conditional and discards it; this definition applies it. -/
def UintAliased (type : Str) : Descriptor :=
  let type := if type == "uint" then "uint256" else type
  .mk (.num 1) (JSNum.jsDiv (jsParseInt (jsReplaceFirst type "uint" "")) (.num 8)) "uint"
    none none none none


/-- A struct declaration named S with two uint128 members, used as a concrete
symbol table in witnesses. -/
def structDeclS : Declaration :=
  .mk "StructDefinition" ⟨some "S", none⟩
    [.mk "VariableDeclaration" ⟨some "a", some "uint128"⟩ [],
     .mk "VariableDeclaration" ⟨some "b", some "uint128"⟩ []]

/-- An enum declaration named E with three values, used as a concrete symbol
table in witnesses. -/
def enumDeclE : Declaration :=
  .mk "EnumDefinition" ⟨some "E", none⟩
    [.mk "EnumValue" ⟨some "x", none⟩ [],
     .mk "EnumValue" ⟨some "y", none⟩ [],
     .mk "EnumValue" ⟨some "z", none⟩ []]

/-- The resolved descriptor of the type string uint128, used as a concrete
member descriptor in witnesses. -/
def uint128Desc : Descriptor := .mk (.num 1) (.num 16) "uint" none none none none

/-! ## Helper lemmas -/

theorem posNumB_iff {n : JSNum} : posNumB n = true ↔ ∃ q : ℚ, n = .num q ∧ 0 < q := by
  cases n <;> simp [posNumB]

theorem geOneB_iff {n : JSNum} : geOneB n = true ↔ ∃ q : ℚ, n = .num q ∧ 1 ≤ q := by
  cases n <;> simp [geOneB]

theorem okShape_mk (s b : JSNum) (tn : Str) (asz : Option ArrSize)
    (u : Option Descriptor) (ms : Option (List Descriptor)) (e : Option Declaration) :
    okShape (.mk s b tn asz u ms e) =
      (posNumB b
        && (match asz with | some (.size n) => geOneB n | _ => true)
        && (match u with | some d => okShape d | none => true)
        && (match ms with | some l => !l.isEmpty && okShapeList l | none => true)) := by
  rw [okShape.eq_def]

theorem okShapeList_nil : okShapeList [] = true := by rw [okShapeList.eq_def]

theorem okShapeList_cons (d : Descriptor) (t : List Descriptor) :
    okShapeList (d :: t) = (okShape d && okShapeList t) := by rw [okShapeList.eq_def]

theorem slotsGE_mk (s b : JSNum) (tn : Str) (asz : Option ArrSize)
    (u : Option Descriptor) (ms : Option (List Descriptor)) (e : Option Declaration) :
    slotsGE (.mk s b tn asz u ms e) =
      (geOneB s
        && (match u with | some d => slotsGE d | none => true)
        && (match ms with | some l => slotsGEList l | none => true)) := by
  rw [slotsGE.eq_def]

theorem slotsGEList_nil : slotsGEList [] = true := by rw [slotsGEList.eq_def]

theorem slotsGEList_cons (d : Descriptor) (t : List Descriptor) :
    slotsGEList (d :: t) = (slotsGE d && slotsGEList t) := by rw [slotsGEList.eq_def]

theorem okShape_posNumB_bytes {d : Descriptor} (h : okShape d = true) :
    posNumB d.storageBytes = true := by
  obtain ⟨s, b, tn, asz, u, ms, e⟩ := d
  rw [okShape_mk] at h
  simp only [Bool.and_eq_true] at h
  exact h.1.1.1

theorem slotsGE_geOneB_slots {d : Descriptor} (h : slotsGE d = true) :
    geOneB d.storageSlots = true := by
  obtain ⟨s, b, tn, asz, u, ms, e⟩ := d
  rw [slotsGE_mk] at h
  simp only [Bool.and_eq_true] at h
  exact h.1.1

theorem structMembersGo_ok (rec : Str → PResult Descriptor) :
    ∀ (children : List Declaration) (acc : List Descriptor) (accB : JSNum)
      (ms : List Descriptor) (total : JSNum),
      decodeInfo.structMembersGo rec children acc accB = .ok (ms, total) →
      ∃ new, ms = acc ++ new ∧ total = foldBytes accB new ∧
        List.Forall₂ (memberFrom rec) children new := by
  intro children
  induction children with
  | nil =>
    intro acc accB ms total h
    simp only [decodeInfo.structMembersGo, PResult.ok.injEq, Prod.mk.injEq] at h
    exact ⟨[], by simp [h.1.symm], by simp [foldBytes, h.2.symm], .nil⟩
  | cons c t ih =>
    intro acc accB ms total h
    simp only [decodeInfo.structMembersGo] at h
    cases hty : c.attributes.type with
    | none => simp only [hty] at h; exact absurd h (by simp)
    | some ts =>
      simp only [hty] at h
      cases hrec : rec ts with
      | ok dk =>
        simp only [hrec] at h
        obtain ⟨new, h1, h2, h3⟩ := ih _ _ _ _ h
        refine ⟨dk :: new, by simp [h1], ?_, .cons ⟨ts, hty, hrec⟩ h3⟩
        simpa [foldBytes] using h2
      | null => simp only [hrec] at h; exact absurd h (by simp)
      | crash => simp only [hrec] at h; exact absurd h (by simp)
      | diverge => simp only [hrec] at h; exact absurd h (by simp)

theorem foldBytes_pos :
    ∀ (ms : List Descriptor), okShapeList ms = true → ms ≠ [] →
      ∀ a : ℚ, ∃ q : ℚ, foldBytes (.num a) ms = .num q ∧ a < q := by
  intro ms
  induction ms with
  | nil => intro _ h; exact absurd rfl h
  | cons d t ih =>
    intro hok _ a
    rw [okShapeList_cons, Bool.and_eq_true] at hok
    obtain ⟨b, hb1, hb2⟩ := posNumB_iff.mp (okShape_posNumB_bytes hok.1)
    have hfold : foldBytes (.num a) (d :: t) = foldBytes (.num (a + b)) t := by
      simp [foldBytes, hb1, jsAdd]
    rcases t with _ | ⟨d2, t2⟩
    · exact ⟨a + b, by simpa [foldBytes] using hfold, by linarith⟩
    · obtain ⟨q, hq1, hq2⟩ := ih hok.2 (by simp) (a + b)
      exact ⟨q, by rw [hfold]; exact hq1, by linarith⟩

theorem Forall₂_slotsGEList (rec : Str → PResult Descriptor)
    (hrec : ∀ t d, rec t = .ok d → okShape d = true → slotsGE d = true) :
    ∀ {children : List Declaration} {ms : List Descriptor},
      List.Forall₂ (memberFrom rec) children ms → okShapeList ms = true →
      slotsGEList ms = true := by
  intro children ms hf
  induction hf with
  | nil => intro _; exact slotsGEList_nil
  | cons hcm _ ih =>
    intro hok
    rw [okShapeList_cons, Bool.and_eq_true] at hok
    obtain ⟨ts, _, hts⟩ := hcm
    rw [slotsGEList_cons, Bool.and_eq_true]
    exact ⟨hrec _ _ hts hok.1, ih hok.2⟩

theorem Array_slotsGE (rec : Str → PResult Descriptor)
    (hrec : ∀ t d, rec t = .ok d → okShape d = true → slotsGE d = true)
    (type : Str) (d : Descriptor)
    (h : decodeInfo.Array rec type = .ok d) (hok : okShape d = true) :
    slotsGE d = true := by
  simp only [decodeInfo.Array] at h
  cases harr : arrayMatch type with
  | none => simp only [harr] at h; exact absurd h (by simp)
  | some p =>
    obtain ⟨g1, g2⟩ := p
    simp only [harr] at h
    cases hre : rec g1 with
    | null => simp only [hre] at h; exact absurd h (by simp)
    | crash => simp only [hre] at h; exact absurd h (by simp)
    | diverge => simp only [hre] at h; exact absurd h (by simp)
    | ok u =>
      simp only [hre, PResult.ok.injEq] at h
      subst h
      rw [okShape_mk] at hok
      simp only [Bool.and_eq_true] at hok
      obtain ⟨⟨⟨-, hsz⟩, hu⟩, -⟩ := hok
      have hslu := hrec g1 u hre hu
      cases hg2 : (g2 == "") with
      | true =>
        simp only [hg2, if_true] at hsz ⊢
        rw [slotsGE_mk]
        simp [geOneB, hslu]
      | false =>
        simp only [hg2, Bool.false_eq_true, if_false] at hsz ⊢
        obtain ⟨n, hn1, hn2⟩ := geOneB_iff.mp hsz
        obtain ⟨b, hb1, hb2⟩ := posNumB_iff.mp (okShape_posNumB_bytes hu)
        rw [slotsGE_mk]
        simp only [Bool.and_eq_true]
        refine ⟨⟨?_, hslu⟩, trivial⟩
        rw [hn1, hb1]
        by_cases hblt : b < 32
        · have hlt : jsLt (.num b) (.num 32) = true := by simp [jsLt, hblt]
          rw [hlt, if_pos rfl]
          have hbne : b ≠ 0 := ne_of_gt hb2
          have hdiv1 : jsDiv (.num 32) (.num b) = .num (32 / b) := by
            simp [jsDiv, hbne]
          rw [hdiv1]
          have hm1 : (1 : ℤ) ≤ ⌊(32 : ℚ) / b⌋ := by
            rw [Int.le_floor]
            rw [le_div_iff₀ hb2]
            push_cast
            linarith
          have hmne : ((⌊(32 : ℚ) / b⌋ : ℤ) : ℚ) ≠ 0 := by
            have : (0 : ℚ) < ((⌊(32 : ℚ) / b⌋ : ℤ) : ℚ) := by exact_mod_cast hm1
            linarith
          have hdiv2 : jsDiv (.num n) (jsFloor (.num (32 / b)))
              = .num (n / ((⌊(32 : ℚ) / b⌋ : ℤ) : ℚ)) := by
            simp [jsFloor, jsDiv, hmne]
          rw [hdiv2]
          have hq : (0 : ℚ) < n / ((⌊(32 : ℚ) / b⌋ : ℤ) : ℚ) := by
            apply div_pos (by linarith)
            exact_mod_cast hm1
          have : (1 : ℤ) ≤ ⌈n / ((⌊(32 : ℚ) / b⌋ : ℤ) : ℚ)⌉ := Int.ceil_pos.mpr hq
          simp only [jsCeil, geOneB]
          rw [decide_eq_true_iff]
          exact_mod_cast this
        · have hlt : jsLt (.num b) (.num 32) = false := by simp [jsLt, hblt]
          rw [hlt, if_neg (by simp)]
          obtain ⟨s, hs1, hs2⟩ := geOneB_iff.mp (slotsGE_geOneB_slots hslu)
          rw [hs1]
          simp only [jsMul, geOneB]
          rw [decide_eq_true_iff]
          nlinarith

theorem Struct_slotsGE (rec : Str → PResult Descriptor)
    (hrec : ∀ t d, rec t = .ok d → okShape d = true → slotsGE d = true)
    (type : Str) (defs : List Declaration) (d : Descriptor)
    (h : decodeInfo.Struct rec type defs = .ok d) (hok : okShape d = true) :
    slotsGE d = true := by
  simp only [decodeInfo.Struct, decodeInfo.getStructMembers] at h
  cases hsm : structMatch type with
  | none => simp only [hsm] at h; exact absurd h (by simp)
  | some nm =>
    simp only [hsm] at h
    cases hfd : decodeInfo.findStructDef nm defs with
    | none =>
      simp only [hfd, PResult.ok.injEq] at h
      subst h
      rw [okShape_mk] at hok
      simp at hok
    | some dec =>
      simp only [hfd] at h
      cases hgo : decodeInfo.structMembersGo rec dec.children [] (.num 0) with
      | null => simp only [hgo] at h; exact absurd h (by simp)
      | crash => simp only [hgo] at h; exact absurd h (by simp)
      | diverge => simp only [hgo] at h; exact absurd h (by simp)
      | ok pair =>
        obtain ⟨ms, total⟩ := pair
        simp only [hgo, PResult.ok.injEq] at h
        subst h
        rw [okShape_mk] at hok
        simp only [Bool.and_eq_true] at hok
        obtain ⟨⟨⟨-, -⟩, -⟩, hms⟩ := hok
        have hne : ms ≠ [] := by
          intro hnil
          rw [hnil] at hms
          simp at hms
        obtain ⟨new, hnew, htot, hf⟩ :=
          structMembersGo_ok rec dec.children [] (.num 0) ms total hgo
        rw [List.nil_append] at hnew
        subst hnew
        obtain ⟨tq, htq1, htq2⟩ := foldBytes_pos ms hms.2 hne 0
        rw [slotsGE_mk]
        simp only [Bool.and_eq_true]
        refine ⟨⟨?_, trivial⟩, Forall₂_slotsGEList rec hrec hf hms.2⟩
        rw [htot, htq1]
        have h32 : (32 : ℚ) ≠ 0 := by norm_num
        have hdiv : jsDiv (.num tq) (.num 32) = .num (tq / 32) := by
          simp [jsDiv, h32]
        rw [hdiv]
        have : (1 : ℤ) ≤ ⌈tq / 32⌉ := Int.ceil_pos.mpr (by positivity)
        simp only [jsCeil, geOneB]
        rw [decide_eq_true_iff]
        exact_mod_cast this

theorem Enum_slotsGE (type : Str) (defs : List Declaration) (d : Descriptor)
    (h : decodeInfo.Enum type defs = .ok d) : slotsGE d = true := by
  simp only [decodeInfo.Enum] at h
  cases hge : decodeInfo.getEnum type defs with
  | none => simp only [hge] at h; exact absurd h (by simp)
  | some dec =>
    simp only [hge, PResult.ok.injEq] at h
    subst h
    rw [slotsGE_mk]
    simp [geOneB]

set_option maxHeartbeats 2000000 in
theorem parseType_ok_slotsGE :
    ∀ (fuel : ℕ) (type : Str) (defs : List Declaration) (d : Descriptor),
      decodeInfo.parseType fuel type defs = .ok d → okShape d = true → slotsGE d = true := by
  intro fuel
  induction fuel with
  | zero =>
    intro t defs d h
    exact absurd h (by simp [decodeInfo.parseType])
  | succ f ih =>
    intro t defs d h hok
    simp only [decodeInfo.parseType] at h
    split_ifs at h with h1 h2 h3 h4 h5 h6 h7 h8 h9 h10
    · injection h with h; subst h
      simp only [decodeInfo.Address]
      rw [slotsGE_mk]; simp [geOneB]
    · exact Array_slotsGE _ (fun ts dd hh hhok => ih ts defs dd hh hhok) t d h hok
    · injection h with h; subst h
      simp only [decodeInfo.Bool]
      rw [slotsGE_mk]; simp [geOneB]
    · injection h with h; subst h
      simp only [decodeInfo.DynamicByteArray]
      rw [slotsGE_mk]; simp [geOneB]
    · injection h with h; subst h
      simp only [decodeInfo.FixedByteArray]
      rw [slotsGE_mk]; simp [geOneB]
    · exact Enum_slotsGE t defs d h
    · injection h with h; subst h
      simp only [decodeInfo.String]
      rw [slotsGE_mk]; simp [geOneB]
    · exact Struct_slotsGE _ (fun ts dd hh hhok => ih ts defs dd hh hhok) t defs d h hok
    · injection h with h; subst h
      simp only [decodeInfo.Int]
      rw [slotsGE_mk]; simp [geOneB]
    · injection h with h; subst h
      simp only [decodeInfo.Uint]
      rw [slotsGE_mk]; simp [geOneB]

theorem parseType_succ_array (f : ℕ) (t : Str) (defs : List Declaration)
    (h : decodeInfo.typeClass t = "array") :
    decodeInfo.parseType (f+1) t defs =
      decodeInfo.Array (fun ts => decodeInfo.parseType f ts defs) t := by
  simp only [decodeInfo.parseType, h]
  simp

theorem parseType_succ_struct (f : ℕ) (t : Str) (defs : List Declaration)
    (h : decodeInfo.typeClass t = "struct") :
    decodeInfo.parseType (f+1) t defs =
      decodeInfo.Struct (fun ts => decodeInfo.parseType f ts defs) t defs := by
  simp only [decodeInfo.parseType, h]
  simp

theorem parseType_succ_enum (f : ℕ) (t : Str) (defs : List Declaration)
    (h : decodeInfo.typeClass t = "enum") :
    decodeInfo.parseType (f+1) t defs = decodeInfo.Enum t defs := by
  simp only [decodeInfo.parseType, h]
  simp


/-- Claim C1 (code bug evidence): the claim states that resolving a struct
type whose name has no matching declaration fails with UnknownDeclaration and
returns no descriptor, not even a partial one.  The code instead falls
through the lookup loop of getStructMembers and returns the untouched
accumulators, so the resolver answers with a struct descriptor carrying an
empty member list and zero storage slots.  This theorem evaluates the
embedding at the failing input: the empty symbol table and the type string
struct Foo. -/
theorem claim_C1_unknown_struct_returns_empty_descriptor :
    decodeInfo.parseType 2 "struct Foo" [] =
      .ok (.mk (.num 0) (.num 32) "struct" none none (some []) none) := by
  with_unfolding_all rfl

/-- Claim C2 (amended): the original claim, that every descriptor returned
on success has storageSlots of at least one on every node, fails on the code
(see the counterexample).  Amended form: whenever the resolver succeeds and
the returned tree is well shaped - every node carries a positive finite
storageBytes, every fixed array size is at least one, and every struct member
list is non-empty - then every node of the tree, the fixed-size arrays and
the structs included, has a finite storageSlots of at least one. -/
theorem claim_C2_slots_ge_one (fuel : ℕ) (type : Str)
    (defs : List Declaration) (d : Descriptor)
    (h : decodeInfo.parseType fuel type defs = .ok d) (hok : okShape d = true) :
    slotsGE d = true :=
  parseType_ok_slotsGE fuel type defs d h hok

/-- Witness for claim C2: the amended theorem applied to the resolution of
uint256 against the empty symbol table. -/
theorem claim_C2_slots_ge_one_witness :
    slotsGE (.mk (.num 1) (.num 32) "uint" none none none none) = true :=
  claim_C2_slots_ge_one 1 "uint256" [] _ (by with_unfolding_all rfl) (by decide)

/-- Counterexample for claim C2 as frozen: resolving bool[0] against the
empty table succeeds and returns a fixed-size array descriptor whose
storageSlots is zero, because ceil(0 / 32) = 0. -/
theorem claim_C2_counterexample :
    resultSlots (decodeInfo.parseType 2 "bool[0]" []) = some (.num 0) := by
  with_unfolding_all rfl

/-- Claim C3 (code bug evidence): the claim states that a type string whose
classifier token is unknown, such as a mapping type, yields an explicit
UnrecognizedCategory failure rather than a crash.  The code instead indexes
the dispatch table at the unknown token, obtains undefined, and invokes it,
which throws a TypeError; the embedding records this thrown exception as the
crash outcome.  The null check guarding the classifier result is dead code,
so no failure value is ever produced for this input. -/
theorem claim_C3_unknown_category_crashes :
    decodeInfo.parseType 1 "mapping (uint256 => uint256)" [] = .crash := by
  rfl

/-- Claim C8: the bare keywords uint and int undergo no alias expansion to
a 256-bit width: the conditional expression on the first line of each builder
is evaluated and discarded, so the returned descriptor has NaN storageBytes
instead of 32.  The last conjunct evaluates the aliasing variant written from
the words of the specification, showing the substitution would have produced
32 had it been applied. -/
theorem claim_C8_bare_uint_no_alias :
    (decodeInfo.Uint "uint").storageBytes = .nan
    ∧ (decodeInfo.Int "int").storageBytes = .nan
    ∧ (decodeInfo.Uint "uint").storageBytes ≠ .num 32
    ∧ decodeInfo.parseType 1 "uint" [] = .ok (.mk (.num 1) .nan "uint" none none none none)
    ∧ decodeInfo.parseType 1 "int" [] = .ok (.mk (.num 1) .nan "int" none none none none)
    ∧ (UintAliased "uint").storageBytes = .num 32 := by
  refine ⟨?_, ?_, ?_, ?_, ?_, ?_⟩
  · rfl
  · rfl
  · decide
  · rfl
  · rfl
  · with_unfolding_all rfl

/-- Counterexample for claim C9 as frozen: the string uint[2 contains an
opening bracket, yet the classifier, which tests for a closing bracket,
returns the token uint[ and not array. -/
theorem claim_C9_counterexample :
    jsHasChar "uint[2" '[' = true
    ∧ decodeInfo.typeClass "uint[2" = "uint["
    ∧ decodeInfo.typeClass "uint[2" ≠ "array" := by
  have h2 : decodeInfo.typeClass "uint[2" = "uint[" := by with_unfolding_all rfl
  refine ⟨by rfl, h2, ?_⟩
  rw [h2]
  decide

/-- Claim C9 (amended): the classifier tests for a closing bracket, not an
opening one.  Amended form: every type string containing a closing bracket is
classified as array, and this rule takes precedence over every other
classification rule. -/
theorem claim_C9_close_bracket_classifies_array (s : Str)
    (h : jsHasChar s ']' = true) : decodeInfo.typeClass s = "array" := by
  simp [decodeInfo.typeClass, h]

/-- Witness for claim C9: uint256[2] is classified as array. -/
theorem claim_C9_witness : decodeInfo.typeClass "uint256[2]" = "array" :=
  claim_C9_close_bracket_classifies_array "uint256[2]" (by rfl)

/-- Claim C10: the enum lookup checks only that the declaration has a
truthy name matching the type string, with no node-kind check, so a
declaration of any kind - a StructDefinition included - is accepted and its
child count becomes the enum value count; the struct lookup, by contrast,
accepts only declarations whose kind tag is StructDefinition. -/
theorem claim_C10_lookup_kinds :
    (∀ (dec : Declaration) (n : Str), dec.attributes.name = some n → n ≠ "" →
        decodeInfo.getEnum ("enum " ++ n) [dec] = some dec)
    ∧ (∀ (dec : Declaration) (nm : Str), dec.name ≠ "StructDefinition" →
        decodeInfo.findStructDef nm [dec] = none)
    ∧ decodeInfo.parseType 1 "enum S" [structDeclS] =
        .ok (.mk (.num 1) (.num (enumBytesLoop ((2:ℕ) : ℚ))) "enum"
              none none none (some structDeclS))
    ∧ enumBytesLoop ((2:ℕ) : ℚ) = 1 := by
  refine ⟨?_, ?_, ?_, ?_⟩
  · intro dec n hname hne
    have hb : (n != "") = true := by simpa using hne
    simp [decodeInfo.getEnum, List.find?, hname, hb]
  · intro dec nm hkind
    have hb : (dec.name == "StructDefinition") = false := beq_eq_false_iff_ne.mpr hkind
    simp [decodeInfo.findStructDef, List.find?, hb]
  · rfl
  · rw [enumBytesLoop]
    norm_num
    rw [enumBytesLoop]
    norm_num

/-- Witness for claim C10: the struct declaration S is found by the enum
lookup, while the enum declaration E is invisible to the struct lookup. -/
theorem claim_C10_witness :
    decodeInfo.getEnum "enum S" [structDeclS] = some structDeclS
    ∧ decodeInfo.findStructDef "E" [enumDeclE] = none :=
  ⟨claim_C10_lookup_kinds.1 structDeclS "S" rfl (by decide),
   claim_C10_lookup_kinds.2.1 enumDeclE "E" (by decide)⟩

theorem jsDiv_num_num {a b : ℚ} (h : b ≠ 0) :
    jsDiv (.num a) (.num b) = .num (a / b) := by simp [jsDiv, h]

theorem jsDiv_num_zero_pos {a : ℚ} (h : 0 < a) :
    jsDiv (.num a) (.num 0) = .inf := by simp [jsDiv, h]

/-- Claim C6: for an enum type string whose declaration is found, the
descriptor has storageSlots one and storageBytes computed by the division
loop that starts from the number of declared values and divides by 256 while
the running value exceeds one; in particular 3 values give width 1, 300
values give width 2, and a single value gives width 0. -/
theorem claim_C6_enum_width (f : ℕ) (t : Str) (defs : List Declaration) (dec : Declaration)
    (hclass : decodeInfo.typeClass t = "enum")
    (hfind : decodeInfo.getEnum t defs = some dec) :
    decodeInfo.parseType (f+1) t defs =
      .ok (.mk (.num 1) (.num (enumBytesLoop (dec.children.length : ℚ))) "enum"
            none none none (some dec))
    ∧ enumBytesLoop 3 = 1 ∧ enumBytesLoop 300 = 2 ∧ enumBytesLoop 1 = 0 := by
  refine ⟨?_, ?_, ?_, ?_⟩
  · rw [parseType_succ_enum f t defs hclass]
    simp [decodeInfo.Enum, hfind]
  · rw [enumBytesLoop]; norm_num; rw [enumBytesLoop]; norm_num
  · rw [enumBytesLoop]; norm_num; rw [enumBytesLoop]; norm_num
    rw [enumBytesLoop]; norm_num
  · rw [enumBytesLoop]; norm_num

/-- Claim C7: whenever a struct resolution succeeds, the returned member
list corresponds one to one, in declaration order, to the declared members,
each entry being the successful resolution of the corresponding member type
string.  Consequently the member list is never partial, and if any member
fails to resolve no struct descriptor can be returned at all. -/
theorem claim_C7_struct_members_complete (f : ℕ) (t : Str)
    (defs : List Declaration) (nm : Str) (dec : Declaration) (d : Descriptor)
    (hclass : decodeInfo.typeClass t = "struct")
    (hmatch : structMatch t = some nm)
    (hfind : decodeInfo.findStructDef nm defs = some dec)
    (h : decodeInfo.parseType (f+1) t defs = .ok d) :
    ∃ ms, d.members = some ms
      ∧ List.Forall₂ (memberFrom (fun ts => decodeInfo.parseType f ts defs))
          dec.children ms := by
  rw [parseType_succ_struct f t defs hclass] at h
  simp only [decodeInfo.Struct, decodeInfo.getStructMembers, hmatch, hfind] at h
  cases hgo : decodeInfo.structMembersGo (fun ts => decodeInfo.parseType f ts defs)
      dec.children [] (.num 0) with
  | ok pair =>
    obtain ⟨ms, total⟩ := pair
    simp only [hgo, PResult.ok.injEq] at h
    subst h
    obtain ⟨new, hnew, -, hf⟩ :=
      structMembersGo_ok _ dec.children [] (.num 0) ms total hgo
    rw [List.nil_append] at hnew
    subst hnew
    exact ⟨ms, rfl, hf⟩
  | null => simp only [hgo] at h; exact absurd h (by simp)
  | crash => simp only [hgo] at h; exact absurd h (by simp)
  | diverge => simp only [hgo] at h; exact absurd h (by simp)

/-- Claim C5: for a struct type string whose declaration is found and whose
members all resolve, the descriptor stores exactly the resolved member list,
storageSlots equal to ceil of the total member bytes divided by 32 - where
the total is the JavaScript sum of each member storageBytes, not
storageSlots - and its own storageBytes is the 32-byte placeholder. -/
theorem claim_C5_struct_packing (f : ℕ) (t : Str) (defs : List Declaration)
    (nm : Str) (dec : Declaration) (ms : List Descriptor) (total : JSNum)
    (hclass : decodeInfo.typeClass t = "struct")
    (hmatch : structMatch t = some nm)
    (hfind : decodeInfo.findStructDef nm defs = some dec)
    (hgo : decodeInfo.structMembersGo (fun ts => decodeInfo.parseType f ts defs)
        dec.children [] (.num 0) = .ok (ms, total)) :
    decodeInfo.parseType (f+1) t defs =
      .ok (.mk (jsCeil (jsDiv (sumMemberBytes ms) (.num 32))) (.num 32) "struct"
            none none (some ms) none) := by
  obtain ⟨new, hnew, htot, -⟩ :=
    structMembersGo_ok _ dec.children [] (.num 0) ms total hgo
  rw [List.nil_append] at hnew
  subst hnew
  rw [parseType_succ_struct f t defs hclass]
  simp only [decodeInfo.Struct, decodeInfo.getStructMembers, hmatch, hfind, hgo]
  rw [sumMemberBytes, ← htot]

/-- Claim C4: for a type string classified as an array whose shape matches
with element substring and size token, and whose element resolves with finite
storageBytes b and storageSlots s: an empty size token gives a dynamic array
descriptor with exactly one storage slot regardless of the element; a size
token parsing to n gives storageSlots ceil(n / floor(32 / b)) when b < 32 and
n * s otherwise. -/
theorem claim_C4_array_packing (f : ℕ) (t : Str) (defs : List Declaration)
    (g1 g2 : Str) (u : Descriptor) (b s : ℚ)
    (hclass : decodeInfo.typeClass t = "array")
    (hmatch : arrayMatch t = some (g1, g2))
    (helem : decodeInfo.parseType f g1 defs = .ok u)
    (hb : u.storageBytes = .num b) (hs : u.storageSlots = .num s) :
    (g2 = "" →
      decodeInfo.parseType (f+1) t defs =
        .ok (.mk (.num 1) (.num 32) "array" (some .dynamic) (some u) none none))
    ∧ (∀ n : ℚ, jsParseInt g2 = .num n →
      decodeInfo.parseType (f+1) t defs =
        .ok (.mk (.num (if b < 32 then (⌈n / ((⌊(32:ℚ)/b⌋ : ℤ) : ℚ)⌉ : ℚ) else n * s))
              (.num 32) "array" (some (.size (.num n))) (some u) none none)) := by
  rw [parseType_succ_array f t defs hclass]
  constructor
  · intro hg2
    subst hg2
    simp [decodeInfo.Array, hmatch, helem]
  · intro n hn
    have hne : (g2 == "") = false := by
      rcases eq_or_ne g2 "" with hg | hg
      · subst hg
        rw [show jsParseInt "" = JSNum.nan from rfl] at hn
        cases hn
      · exact beq_eq_false_iff_ne.mpr hg
    simp only [decodeInfo.Array, hmatch, helem, hne, hn, hb, hs, Bool.false_eq_true,
      if_false]
    by_cases hblt : b < 32
    · have hlt : jsLt (.num b) (.num 32) = true := by simp [jsLt, hblt]
      rw [hlt, if_pos rfl, if_pos hblt]
      by_cases hb0 : b = 0
      · subst hb0
        rw [jsDiv_num_zero_pos (by norm_num)]
        norm_num [jsFloor, jsDiv, jsCeil]
      · rw [jsDiv_num_num hb0, jsFloor]
        have hm : ((⌊(32:ℚ)/b⌋ : ℤ) : ℚ) ≠ 0 := by
          rcases lt_or_gt_of_ne hb0 with hneg | hpos
          · have hx : (32:ℚ)/b < 0 := div_neg_of_pos_of_neg (by norm_num) hneg
            have : ((⌊(32:ℚ)/b⌋ : ℤ) : ℚ) ≤ (32:ℚ)/b := Int.floor_le _
            linarith
          · have hx : (1:ℚ) ≤ (32:ℚ)/b := by
              rw [le_div_iff₀ hpos]; linarith
            have : (1 : ℤ) ≤ ⌊(32:ℚ)/b⌋ := by
              rw [Int.le_floor]; exact_mod_cast hx
            have : (1:ℚ) ≤ ((⌊(32:ℚ)/b⌋ : ℤ) : ℚ) := by exact_mod_cast this
            linarith
        rw [jsDiv_num_num hm, jsCeil]
    · have hlt : jsLt (.num b) (.num 32) = false := by simp [jsLt, hblt]
      rw [hlt, if_neg (by simp), if_neg hblt]
      rfl


/-- Witness for claim C4: uint128[3] against the empty table; the element
has 16 bytes, so floor(32/16) = 2 items share a slot and ceil(3/2) = 2 slots
result. -/
theorem claim_C4_witness :
    decodeInfo.parseType 2 "uint128[3]" [] =
      .ok (.mk (.num (if (16:ℚ) < 32 then (⌈(3:ℚ) / ((⌊(32:ℚ)/16⌋ : ℤ) : ℚ)⌉ : ℚ) else 3 * 1))
            (.num 32) "array" (some (.size (.num 3))) (some uint128Desc) none none) :=
  (claim_C4_array_packing 1 "uint128[3]" [] "uint128" "3" uint128Desc 16 1
      (by with_unfolding_all rfl) (by with_unfolding_all rfl)
      (by with_unfolding_all rfl) (by rfl) (by rfl)).2
    3 (by with_unfolding_all rfl)

/-- Witness for claim C5: struct S with two uint128 members; 16 + 16 = 32
bytes total, hence one storage slot. -/
theorem claim_C5_witness :
    decodeInfo.parseType 2 "struct S" [structDeclS] =
      .ok (.mk (jsCeil (jsDiv (sumMemberBytes [uint128Desc, uint128Desc]) (.num 32)))
            (.num 32) "struct" none none (some [uint128Desc, uint128Desc]) none) :=
  claim_C5_struct_packing 1 "struct S" [structDeclS] "S" structDeclS
    [uint128Desc, uint128Desc] (.num 32)
    (by with_unfolding_all rfl) (by with_unfolding_all rfl)
    (by with_unfolding_all rfl) (by with_unfolding_all rfl)

/-- Witness for claim C6: enum E with three declared values resolves to a
one-slot descriptor, and the loop evaluations hold. -/
theorem claim_C6_witness :
    decodeInfo.parseType 2 "enum E" [enumDeclE] =
      .ok (.mk (.num 1) (.num (enumBytesLoop ((enumDeclE.children.length : ℕ) : ℚ))) "enum"
            none none none (some enumDeclE))
    ∧ enumBytesLoop 3 = 1 ∧ enumBytesLoop 300 = 2 ∧ enumBytesLoop 1 = 0 :=
  claim_C6_enum_width 1 "enum E" [enumDeclE] enumDeclE
    (by with_unfolding_all rfl) (by with_unfolding_all rfl)

/-- Witness for claim C7: the resolution of struct S with two uint128
members produces a member list in one to one correspondence with the two
declared members. -/
theorem claim_C7_witness :
    ∃ ms, (Descriptor.mk (.num 1) (.num 32) "struct" none none
            (some [uint128Desc, uint128Desc]) none).members = some ms
      ∧ List.Forall₂ (memberFrom (fun ts => decodeInfo.parseType 1 ts [structDeclS]))
          structDeclS.children ms :=
  claim_C7_struct_members_complete 1 "struct S" [structDeclS] "S" structDeclS
    (.mk (.num 1) (.num 32) "struct" none none (some [uint128Desc, uint128Desc]) none)
    (by with_unfolding_all rfl) (by with_unfolding_all rfl)
    (by with_unfolding_all rfl) (by with_unfolding_all rfl)
